import Mathlib

set_option maxRecDepth 100000

/-!
Verification development for the scid_parser repository.

The Python sources are shallowly embedded as executable Lean definitions:

* src/parser.py        — byte-level SCID decoding (SCIDParser namespace);
* src/resample_scid.py — tick cleaning and 1-minute OHLCV aggregation,
  with prices as exact rationals (float arithmetic is modelled by ℚ);
* src/db_manager.py / src/clickhouse_manager.py — destination tables as row
  lists, batch insertion (DBManager / ClickHouseManager namespaces);
* src/data_sync.py / src/clickhouse_sync.py — checkpoint store and the two
  ingestion orchestrators as explicit state-passing folds over the contract
  file list (DataSync / ClickHouseSync namespaces).

Machine integers are Nat; byte streams are lists of byte values; fallible
code returns Except.  File-system and database I/O are inputs of the model:
the records a file decodes to, and whether a path exists, are passed in as
functions.
-/

/-! ## Byte-level SCID decoding (src/parser.py) -/

/-- Header size in bytes (parser.py: HEADER_SIZE = 56). -/
def HEADER_SIZE : Nat := 56

/-- Record size in bytes (parser.py: RECORD_SIZE = 40). -/
def RECORD_SIZE : Nat := 40

/-- Little-endian interpretation of a byte list, least significant byte
first, as done by struct.unpack on each fixed-width field. -/
def leNat (bs : List Nat) : Nat := bs.foldr (fun b acc => b + 256 * acc) 0

/-- Validity of a byte list as strict UTF-8, exactly as Python's
bytes.decode with the utf-8 codec accepts it: RFC 3629 sequences, no
overlong forms, no surrogates, nothing above U+10FFFF.  parser.py decodes
the 4-byte file_type_id field with this codec. -/
def utf8Valid : List Nat → Bool
  | [] => true
  | b :: rest =>
    if b < 0x80 then utf8Valid rest
    else if b < 0xC2 then false
    else if b < 0xE0 then
      match rest with
      | b1 :: r => (decide (0x80 ≤ b1 ∧ b1 < 0xC0)) && utf8Valid r
      | [] => false
    else if b < 0xF0 then
      match rest with
      | b1 :: b2 :: r =>
        (if b = 0xE0 then decide (0xA0 ≤ b1 ∧ b1 < 0xC0)
         else if b = 0xED then decide (0x80 ≤ b1 ∧ b1 < 0xA0)
         else decide (0x80 ≤ b1 ∧ b1 < 0xC0)) &&
        (decide (0x80 ≤ b2 ∧ b2 < 0xC0)) && utf8Valid r
      | _ => false
    else if b < 0xF5 then
      match rest with
      | b1 :: b2 :: b3 :: r =>
        (if b = 0xF0 then decide (0x90 ≤ b1 ∧ b1 < 0xC0)
         else if b = 0xF4 then decide (0x80 ≤ b1 ∧ b1 < 0x90)
         else decide (0x80 ≤ b1 ∧ b1 < 0xC0)) &&
        (decide (0x80 ≤ b2 ∧ b2 < 0xC0)) && (decide (0x80 ≤ b3 ∧ b3 < 0xC0)) &&
        utf8Valid r
      | _ => false
    else false

/-- Strip trailing NUL bytes, as Python's rstrip of the NUL character does
on the decoded file_type_id. -/
def rstripNul (bs : List Nat) : List Nat := (bs.reverse.dropWhile (fun b => b == 0)).reverse

/-- SCID file header (parser.py: SCIDHeader).  file_type_id keeps the raw
magic bytes after NUL-stripping. -/
structure SCIDHeader where
  file_type_id : List Nat
  header_size : Nat
  record_size : Nat
  version : Nat
  unused1 : Nat
  utc_start_index : Nat
  reserve : List Nat
deriving DecidableEq

/-- One decoded 40-byte tick record (parser.py: SCIDRecord).  The four
price fields are kept as their raw little-endian 32-bit patterns; the
derived datetime is the SC epoch plus raw_time microseconds, so datetime
comparisons are order-isomorphic to raw_time comparisons and the model
carries raw_time only. -/
structure SCIDRecord where
  raw_time : Nat
  open_bits : Nat
  high_bits : Nat
  low_bits : Nat
  close_bits : Nat
  num_trades : Nat
  volume : Nat
  bid_volume : Nat
  ask_volume : Nat
deriving DecidableEq

namespace SCIDParser

/-- Read and parse the 56-byte header (parser.py: SCIDParser.parse_header).
The source raises ValueError when fewer than HEADER_SIZE bytes are read,
then struct.unpack splits the 56 bytes (this cannot fail), then the 4-byte
file_type_id is decoded as UTF-8 (UnicodeDecodeError on invalid bytes)
and right-stripped of NULs. -/
def parse_header (bytes : List Nat) : Except String SCIDHeader :=
  if bytes.length < HEADER_SIZE then
    Except.error "File is too small to contain a valid header."
  else if utf8Valid (bytes.take 4) then
    Except.ok
      { file_type_id := rstripNul (bytes.take 4)
      , header_size := leNat ((bytes.drop 4).take 4)
      , record_size := leNat ((bytes.drop 8).take 4)
      , version := leNat ((bytes.drop 12).take 2)
      , unused1 := leNat ((bytes.drop 14).take 2)
      , utc_start_index := leNat ((bytes.drop 16).take 4)
      , reserve := (bytes.drop 20).take 36 }
  else
    Except.error "UnicodeDecodeError: invalid utf-8 in file_type_id"

/-- Unpack one 40-byte record with layout u64 time, 4 x f32, 4 x u32
(parser.py RECORD_FORMAT), little-endian. -/
def unpackRecord (bs : List Nat) : SCIDRecord :=
  { raw_time := leNat (bs.take 8)
  , open_bits := leNat ((bs.drop 8).take 4)
  , high_bits := leNat ((bs.drop 12).take 4)
  , low_bits := leNat ((bs.drop 16).take 4)
  , close_bits := leNat ((bs.drop 20).take 4)
  , num_trades := leNat ((bs.drop 24).take 4)
  , volume := leNat ((bs.drop 28).take 4)
  , bid_volume := leNat ((bs.drop 32).take 4)
  , ask_volume := leNat ((bs.drop 36).take 4) }

/-- Range test of a record against the optional date bounds, start
inclusive, end exclusive (dates expressed as microseconds since the SC
epoch, the unit in which the source compares the derived datetimes). -/
def recordInRange (start_date end_date : Option Nat) (r : SCIDRecord) : Bool :=
  (match start_date with
   | some sd => decide (sd ≤ r.raw_time)
   | none => true) &&
  (match end_date with
   | some ed => decide (r.raw_time < ed)
   | none => true)

/-- The record loop of read_records (parser.py lines 186-218): read
RECORD_SIZE bytes; a shorter buffer breaks the loop; otherwise unpack and
skip the record when it falls outside the date bounds, mirroring the two
continue statements. -/
def readRecordsLoop (start_date end_date : Option Nat) (bytes : List Nat) :
    List SCIDRecord :=
  if h : bytes.length < RECORD_SIZE then []
  else
    let r := unpackRecord (bytes.take RECORD_SIZE)
    let rest := readRecordsLoop start_date end_date (bytes.drop RECORD_SIZE)
    if (match start_date with
        | some sd => decide (r.raw_time < sd)
        | none => false) then rest
    else if (match end_date with
        | some ed => decide (ed ≤ r.raw_time)
        | none => false) then rest
    else r :: rest
termination_by bytes.length
decreasing_by
  simp only [RECORD_SIZE] at h
  simp only [List.length_drop, RECORD_SIZE]
  omega

/-- read_records (parser.py lines 157-218): parse the header (the file
position is then HEADER_SIZE), seek to the byte offset only when it
strictly exceeds HEADER_SIZE, then run the record loop on the remaining
bytes. -/
def read_records (bytes : List Nat) (start_date end_date : Option Nat)
    (offset : Nat) : Except String (List SCIDRecord) :=
  match parse_header bytes with
  | Except.error e => Except.error e
  | Except.ok _ =>
    let startPos := if HEADER_SIZE < offset then offset else HEADER_SIZE
    Except.ok (readRecordsLoop start_date end_date (bytes.drop startPos))

end SCIDParser

/-- Whether an Except value is an error. -/
def isErr {ε α : Type} : Except ε α → Bool
  | Except.error _ => true
  | Except.ok _ => false

/-! ## Resampling (src/resample_scid.py), prices as exact rationals -/

/-- One tick row of the memory-mapped record array, as the resampler sees
it (resample_scid.py sciddtype): Time in raw SC microseconds, prices as
numbers, volumes as naturals. -/
@[ext]
structure RTick where
  time : Nat
  open_ : ℚ
  high : ℚ
  low : ℚ
  close : ℚ
  trades : Nat
  volume : Nat
  bid_volume : Nat
  ask_volume : Nat
deriving DecidableEq

/-- First-trade-in-bundle sentinel price (parser.py FIRST_BUNDLE_TRADE). -/
def FIRST_BUNDLE_TRADE : ℚ := -19990009513251226345509817234554355712

/-- Last-trade-in-bundle sentinel price (parser.py LAST_BUNDLE_TRADE). -/
def LAST_BUNDLE_TRADE : ℚ := -19990019654456028171345029208179998720

/-- The 1e10 tolerance used by the bundle classification and by the
resampler's regular-trade mask. -/
def q1e10 : ℚ := 10000000000

/-- parser.py SCIDRecord.is_regular_trade: absolute Open below 1e10. -/
def RTick.is_regular_trade (t : RTick) : Bool := decide (|t.open_| < q1e10)

/-- parser.py SCIDRecord.is_first_bundle: Open within 1e10 of the first
bundle sentinel. -/
def RTick.is_first_bundle (t : RTick) : Bool :=
  decide (|t.open_ - FIRST_BUNDLE_TRADE| < q1e10)

/-- parser.py SCIDRecord.is_last_bundle: Open within 1e10 of the last
bundle sentinel. -/
def RTick.is_last_bundle (t : RTick) : Bool :=
  decide (|t.open_ - LAST_BUNDLE_TRADE| < q1e10)

/-- Microseconds per minute bucket (resample_scid.py MINUTE_US). -/
def MINUTE_US : Nat := 60000000

/-- Microseconds from 1970-01-01 back to 1899-12-30
(resample_scid.py SC_EPOCH_US). -/
def SC_EPOCH_US : Nat := 2209161600000000

/-- resample_scid.py to_raw: convert a Unix-epoch microsecond timestamp to
SC raw microseconds. -/
def to_raw (unix_us : Nat) : Nat := unix_us + SC_EPOCH_US

/-- The date filter of resample_scid.py lines 92-104: keep Time at or
above the raw start and strictly below the raw end, each bound applied
only when present (bounds given as Unix-epoch microseconds). -/
def dateFilter (df : List RTick) (start_date end_date : Option Nat) : List RTick :=
  let df1 := match start_date with
    | some sd => df.filter (fun t => decide (to_raw sd ≤ t.time))
    | none => df
  match end_date with
  | some ed => df1.filter (fun t => decide (t.time < to_raw ed))
  | none => df1

/-- The bundle-marker mask of resample_scid.py line 114/119: keep rows
with absolute Open below 1e10. -/
def maskRegular (df : List RTick) : List RTick :=
  df.filter (fun t => t.is_regular_trade)

/-- Multiply the four price fields of one tick by the price multiplier. -/
def scaleTick (m : ℚ) (t : RTick) : RTick :=
  { t with open_ := t.open_ * m, high := t.high * m,
           low := t.low * m, close := t.close * m }

/-- The multiplier stage of resample_scid.py lines 122-125: the O/H/L/C
columns are scaled only when the multiplier differs from 1.0. -/
def applyMultiplier (m : ℚ) (df : List RTick) : List RTick :=
  if m ≠ 1 then df.map (scaleTick m) else df

/-- The zero-open fix applied to one tick (resample_scid.py line 134):
an Open equal to 0.0 is replaced by that tick's Close. -/
def zfixTick (t : RTick) : RTick :=
  if t.open_ = 0 then { t with open_ := t.close } else t

/-- The zero-open stage of resample_scid.py lines 131-134. -/
def zeroOpenFix (df : List RTick) : List RTick := df.map zfixTick

/-- The cleaned stream fed to the groupby aggregation, composed in the
order the source applies the stages: mask, then multiplier, then
zero-open fix. -/
def cleanedTicks (df : List RTick) (m : ℚ) : List RTick :=
  zeroOpenFix (applyMultiplier m (maskRegular df))

/-- Modelled from the claim's wording (refinement reference, not from the
source): drop non-regular ticks, then replace a zero Open by the Close,
then scale all four prices by the multiplier. -/
def cleanedTicksSpec (df : List RTick) (m : ℚ) : List RTick :=
  ((df.filter (fun t => t.is_regular_trade)).map zfixTick).map (scaleTick m)

/-- The MinuteIndex column (resample_scid.py line 140): integer division
of the raw time by MINUTE_US. -/
def minuteIndexOf (t : RTick) : Nat := t.time / MINUTE_US

/-- One output OHLCV bar of the aggregation. -/
@[ext]
structure Bar where
  open_ : ℚ
  high : ℚ
  low : ℚ
  close : ℚ
  trades : Nat
  volume : Nat
  bid_volume : Nat
  ask_volume : Nat
deriving DecidableEq

/-- Open aggregate: first row of the group. -/
def firstOpen : List RTick → ℚ
  | [] => 0
  | t :: _ => t.open_

/-- Close aggregate: last row of the group. -/
def lastClose : List RTick → ℚ
  | [] => 0
  | [t] => t.close
  | _ :: t :: ts => lastClose (t :: ts)

/-- High aggregate: maximum High of the group. -/
def maxHigh : List RTick → ℚ
  | [] => 0
  | t :: ts => ts.foldl (fun a u => max a u.high) t.high

/-- Low aggregate: minimum Low of the group. -/
def minLow : List RTick → ℚ
  | [] => 0
  | t :: ts => ts.foldl (fun a u => min a u.low) t.low

/-- Trades aggregate: sum over the group. -/
def sumTrades (g : List RTick) : Nat := (g.map (fun t => t.trades)).sum

/-- Volume aggregate: sum over the group. -/
def sumVolume (g : List RTick) : Nat := (g.map (fun t => t.volume)).sum

/-- BidVolume aggregate: sum over the group. -/
def sumBid (g : List RTick) : Nat := (g.map (fun t => t.bid_volume)).sum

/-- AskVolume aggregate: sum over the group. -/
def sumAsk (g : List RTick) : Nat := (g.map (fun t => t.ask_volume)).sum

/-- The agg dictionary of resample_scid.py lines 145-154 applied to one
group, in row order: first Open, max High, min Low, last Close, summed
Trades/Volume/BidVolume/AskVolume. -/
def aggGroup (g : List RTick) : Bar :=
  { open_ := firstOpen g
  , high := maxHigh g
  , low := minLow g
  , close := lastClose g
  , trades := sumTrades g
  , volume := sumVolume g
  , bid_volume := sumBid g
  , ask_volume := sumAsk g }

/-- The group of rows of one minute bucket: the rows whose MinuteIndex
equals the key, in their original order, as pandas groupby groups them. -/
def groupRows (df : List RTick) (k : Nat) : List RTick :=
  df.filter (fun t => decide (minuteIndexOf t = k))

/-- The distinct minute keys in ascending order, as pandas groupby sorts
its group keys. -/
def bucketKeys (df : List RTick) : List Nat :=
  List.insertionSort (fun a b => a ≤ b) (df.map minuteIndexOf).dedup

/-- The groupby('MinuteIndex').agg step: one (key, bar) pair per distinct
minute index. -/
def resampleAgg (df : List RTick) : List (Nat × Bar) :=
  (bucketKeys df).map (fun k => (k, aggGroup (groupRows df k)))

/-- resample_scid_to_1min (resample_scid.py lines 34-174) on an
already-decoded record array: date filter, empty check, bundle mask,
price multiplier, second empty check, zero-open fix, minute bucketing and
aggregation.  The limit and config-lookup conveniences and the output
writing are omitted; the two early returns of None are the two empty
checks. -/
def resample_scid_to_1min (df : List RTick) (start_date end_date : Option Nat)
    (price_multiplier : ℚ) : Option (List (Nat × Bar)) :=
  let df1 := dateFilter df start_date end_date
  if df1.isEmpty then none
  else if (applyMultiplier price_multiplier (maskRegular df1)).isEmpty then none
  else some (resampleAgg (cleanedTicks df1 price_multiplier))

/-- Chronological ordering of a tick stream by raw time. -/
def sortedByTime (df : List RTick) : Prop :=
  df.Pairwise (fun a b => a.time ≤ b.time)

instance (df : List RTick) : Decidable (sortedByTime df) := by
  unfold sortedByTime; infer_instance

/-! ## Destination tables and batch loaders
(src/db_manager.py, src/clickhouse_manager.py) -/

/-- One destination row, the image of SCIDRecord.to_db_tuple: the derived
datetime (microseconds since the SC epoch), the raw time, OHLC prices,
the four volume counters and the contract symbol. -/
structure DbRow where
  datetime : Nat
  raw_time : Nat
  open_ : ℚ
  high : ℚ
  low : ℚ
  close : ℚ
  num_trades : Nat
  volume : Nat
  bid_volume : Nat
  ask_volume : Nat
  contract : String
deriving DecidableEq

/-- The destination uniqueness key (datetime, raw_time). -/
def DbRow.key (r : DbRow) : Nat × Nat := (r.datetime, r.raw_time)

/-- Number of rows of a table carrying a given key. -/
def countKey (t : List DbRow) (k : Nat × Nat) : Nat :=
  (t.filter (fun r => decide (r.key = k))).length

namespace DBManager

/-- The keys present in a table. -/
def tableKeys (t : List DbRow) : List (Nat × Nat) := t.map DbRow.key

/-- Effect of moving one staged row into the destination under
ON CONFLICT (datetime, raw_time) DO NOTHING: skip when the key is already
present, else append. -/
def insertOne (t : List DbRow) (r : DbRow) : List DbRow :=
  if r.key ∈ tableKeys t then t else t ++ [r]

/-- db_manager.py DBManager.insert_records (lines 101-178): an empty batch
returns 0 without touching the table; otherwise COPY the batch into a
temporary staging table and INSERT it into the destination with
ON CONFLICT (datetime, raw_time) DO NOTHING, the rows being processed in
batch order; the returned count is the net-new row count reported by the
command tag.  Returns (new table, inserted count). -/
def insert_records (t : List DbRow) (records : List DbRow) : List DbRow × Nat :=
  if records.isEmpty then (t, 0)
  else
    let t' := records.foldl insertOne t
    (t', t'.length - t.length)

end DBManager

namespace ClickHouseManager

/-- clickhouse_manager.py ClickHouseManager.insert_records (lines 75-109):
an empty batch returns 0; otherwise a plain native-protocol INSERT appends
every row of the batch to the table unconditionally and returns the batch
length. -/
def insert_records (t : List DbRow) (records : List DbRow) : List DbRow × Nat :=
  if records.isEmpty then (t, 0) else (t ++ records, records.length)

end ClickHouseManager

/-! ## Checkpoint store (src/data_sync.py Checkpoint,
src/clickhouse_sync.py ClickHouseCheckpoint) -/

/-- Checkpoint state: the completed flag per (symbol, filename) key.  The
JSON document nests symbol -> files -> filename -> completed; the model
flattens the nesting to a keyed association list with the same lookup and
update semantics.  last_position and last_updated play no part in the
claims and are omitted. -/
abbrev CkptData := List ((String × String) × Bool)

/-- Checkpoint.is_completed / ClickHouseCheckpoint.is_completed: the
completed flag of the key, false for unknown keys. -/
def is_completed_data (d : CkptData) (s f : String) : Bool :=
  match d.find? (fun e => e.1 == (s, f)) with
  | some e => e.2
  | none => false

/-- Checkpoint.set_completed / ClickHouseCheckpoint.set_completed: set the
completed flag of the key, creating the entry when missing. -/
def set_completed_data (d : CkptData) (s f : String) (c : Bool) : CkptData :=
  match d with
  | [] => [((s, f), c)]
  | e :: rest =>
    if e.1 == (s, f) then ((s, f), c) :: rest
    else e :: set_completed_data rest s f c

/-- Path(file_path).name as used to key checkpoint entries: the final
component of a slash-separated path (the characters after the last
slash). -/
def fileName (p : String) : String :=
  String.mk (p.data.foldl (fun acc c => if c = '/' then [] else acc ++ [c]) [])

/-- The batching loop of the sync code: append each record to the pending
batch, flush the batch once its length reaches batch_size, and flush a
nonempty remainder after the stream ends. -/
def batchLoop {α : Type} (batch_size : Nat) : List α → List α → List (List α)
  | acc, [] => if acc.isEmpty then [] else [acc]
  | acc, r :: rs =>
    if batch_size ≤ (acc ++ [r]).length then (acc ++ [r]) :: batchLoop batch_size [] rs
    else batchLoop batch_size (acc ++ [r]) rs

/-- Split a record stream into insertion batches, starting from an empty
pending batch. -/
def chunkList {α : Type} (n : Nat) (l : List α) : List (List α) :=
  batchLoop n [] l

/-! ## PostgreSQL orchestrator (src/data_sync.py DataSync) -/

/-- State threaded through DataSync.sync_symbol: the in-memory checkpoint
dictionary, the durable (saved) checkpoint file, the destination table,
and the list of files that were actually decoded and loaded. -/
structure DSState where
  mem : CkptData
  durable : CkptData
  table : List DbRow
  processedLog : List String
deriving DecidableEq

namespace DataSync

/-- One iteration of the contract loop of DataSync.sync_symbol (data_sync.py
lines 154-212): a missing file is skipped with a warning; otherwise the
file's records (read_records output under the contract's date bounds,
supplied by the recs argument) are batched and inserted, and set_completed
updates the in-memory checkpoint.  No save happens here: the single
checkpoint.save() of the source sits after the loop (line 214), so the
durable component is untouched. -/
def sync_step (symbol : String) (fsExists : String → Bool)
    (recs : String → List DbRow) (batch_size : Nat)
    (st : DSState) (file_path : String) : DSState :=
  if fsExists file_path then
    let rows := recs file_path
    let table' := (chunkList batch_size rows).foldl
      (fun t b => (DBManager.insert_records t b).1) st.table
    { mem := set_completed_data st.mem symbol (fileName file_path) true
    , durable := st.durable
    , table := table'
    , processedLog := st.processedLog ++ [fileName file_path] }
  else st

/-- The successive states of a run of DataSync.sync_symbol, the state after
the k-th contract file at index k; a run that stops (crashes) after k files
leaves the durable component of the state at index k on disk. -/
def sync_states (symbol : String) (fsExists : String → Bool)
    (recs : String → List DbRow) (batch_size : Nat)
    (init : DSState) (files : List String) : List DSState :=
  files.scanl (sync_step symbol fsExists recs batch_size) init

/-- A completed run of DataSync.sync_symbol: the contract loop followed by
the single checkpoint.save() (data_sync.py line 214), which makes the
in-memory checkpoint durable. -/
def sync_symbol (symbol : String) (fsExists : String → Bool)
    (recs : String → List DbRow) (batch_size : Nat)
    (init : DSState) (files : List String) : DSState :=
  let fin := files.foldl (sync_step symbol fsExists recs batch_size) init
  { fin with durable := fin.mem }

end DataSync

/-! ## ClickHouse orchestrator (src/clickhouse_sync.py) -/

/-- The keyword parameters accepted by SCIDParser.read_records
(parser.py line 157): start_date, end_date, offset. -/
def read_records_params : List String := ["start_date", "end_date", "offset"]

/-- The keyword arguments process_contract passes to read_records
(clickhouse_sync.py line 116): start_date, end_date and buffer_size. -/
def process_contract_call_keywords : List String :=
  ["start_date", "end_date", "buffer_size"]

/-- Whether the read_records call in process_contract binds: Python raises
TypeError at the call when a keyword is not a parameter.  buffer_size is
not a parameter of read_records, so this is false. -/
def read_records_call_ok : Bool :=
  process_contract_call_keywords.all (fun k => read_records_params.contains k)

/-- The parser thread of process_contract (clickhouse_sync.py lines
109-131): when the read_records call binds it chunks the decoded records
into batches and enqueues them; any exception is caught and recorded, so a
failed call yields no batches and the error flag.  Returns (queued
batches, errored). -/
def parser_thread (call_ok : Bool) (rows : List DbRow) (batch_size : Nat) :
    List (List DbRow) × Bool :=
  if call_ok then (chunkList batch_size rows, false) else ([], true)

/-- process_contract (clickhouse_sync.py lines 68-171): a missing file
returns zero stats; otherwise the main loop drains every queued batch into
the ClickHouse table, accumulating the processed count (the cumulative
record count at the last consumed batch) and the inserted count (the sum
of the per-batch insert_records return values); a recorded parse error is
re-raised after the drain and caught by the outer handler, which returns
the stats gathered so far.  Returns (new table, processed, inserted). -/
def process_contract (fileExists : Bool) (rows : List DbRow)
    (batch_size : Nat) (table : List DbRow) : List DbRow × Nat × Nat :=
  if fileExists then
    let pr := parser_thread read_records_call_ok rows batch_size
    let table' := pr.1.foldl (fun t b => (ClickHouseManager.insert_records t b).1) table
    let processed := pr.1.foldl (fun n b => n + b.length) 0
    let inserted := pr.1.foldl (fun n b => n + (ClickHouseManager.insert_records table b).2) 0
    (table', processed, inserted)
  else (table, 0, 0)

/-- State threaded through ClickHouseSync.sync_symbol, with the same
components as DSState. -/
structure CHState where
  mem : CkptData
  durable : CkptData
  table : List DbRow
  processedLog : List String
deriving DecidableEq

namespace ClickHouseSync

/-- One iteration of the contract loop of ClickHouseSync.sync_symbol
(clickhouse_sync.py lines 215-241), generic in the per-file outcome: skip
a file whose checkpoint entry is completed; otherwise run the file
(results yields the new table and the processed/inserted stats), and only
when both stats are positive mark the file completed and save the
checkpoint immediately — durable becomes the updated memory state before
the next file is touched. -/
def sync_step_gen (symbol : String)
    (results : String → CHState → List DbRow × Nat × Nat)
    (st : CHState) (file_path : String) : CHState :=
  if is_completed_data st.mem symbol (fileName file_path) then st
  else
    let r := results file_path st
    let st' := { st with
      table := r.1
      processedLog := st.processedLog ++ [fileName file_path] }
    if 0 < r.2.1 ∧ 0 < r.2.2 then
      let mem' := set_completed_data st'.mem symbol (fileName file_path) true
      { st' with mem := mem', durable := mem' }
    else st'

/-- The successive states of a run of ClickHouseSync.sync_symbol. -/
def sync_states_gen (symbol : String)
    (results : String → CHState → List DbRow × Nat × Nat)
    (init : CHState) (files : List String) : List CHState :=
  files.scanl (sync_step_gen symbol results) init

/-- A completed run of the generic contract loop. -/
def sync_symbol_gen (symbol : String)
    (results : String → CHState → List DbRow × Nat × Nat)
    (init : CHState) (files : List String) : CHState :=
  files.foldl (sync_step_gen symbol results) init

/-- ClickHouseSync.sync_symbol with the faithful per-file outcome: each
non-skipped file is handed to process_contract against the current
table. -/
def sync_symbol (symbol : String) (fsExists : String → Bool)
    (recs : String → List DbRow) (batch_size : Nat)
    (init : CHState) (files : List String) : CHState :=
  sync_symbol_gen symbol
    (fun f st => process_contract (fsExists f) (recs f) batch_size st.table)
    init files

end ClickHouseSync

/-! ## Concrete data used by counterexamples and witnesses -/

/-- A destination row used by concrete runs. -/
def row0 : DbRow :=
  { datetime := 5, raw_time := 5, open_ := 1, high := 2, low := 1, close := 2
  , num_trades := 1, volume := 3, bid_volume := 1, ask_volume := 2
  , contract := "ESZ24" }

/-- Example tick: first of the three-in-one-bucket resampling example. -/
def exT0 : RTick :=
  { time := 0, open_ := 100, high := 101, low := 100, close := 101
  , trades := 1, volume := 10, bid_volume := 1, ask_volume := 2 }

/-- Example tick: the zero-open middle tick of the resampling example. -/
def exT1 : RTick :=
  { time := 1, open_ := 0, high := 103, low := 103, close := 103
  , trades := 2, volume := 20, bid_volume := 1, ask_volume := 2 }

/-- Example tick: last of the resampling example. -/
def exT2 : RTick :=
  { time := 2, open_ := 102, high := 104, low := 102, close := 104
  , trades := 3, volume := 30, bid_volume := 1, ask_volume := 2 }

/-- The three-tick example stream. -/
def exDf : List RTick := [exT0, exT1, exT2]

/-- The bar the example stream resamples to. -/
def exBar : Bar :=
  { open_ := 100, high := 104, low := 100, close := 104
  , trades := 6, volume := 60, bid_volume := 3, ask_volume := 6 }

/-- A tick lying within 1e10 of the first bundle sentinel, with nonzero
volume fields. -/
def sentinelTick : RTick :=
  { time := 0, open_ := FIRST_BUNDLE_TRADE + 5, high := 7, low := 3, close := 5
  , trades := 4, volume := 9, bid_volume := 4, ask_volume := 5 }

/-- The empty orchestrator state for the PostgreSQL sync. -/
def dsInit : DSState := { mem := [], durable := [], table := [], processedLog := [] }

/-- A PostgreSQL-sync state whose checkpoint already reports a.scid
completed for ES, durably and in memory. -/
def dsInitCompleted : DSState :=
  { mem := [(("ES", "a.scid"), true)]
  , durable := [(("ES", "a.scid"), true)]
  , table := [], processedLog := [] }

/-- The empty orchestrator state for the ClickHouse sync. -/
def chInit : CHState := { mem := [], durable := [], table := [], processedLog := [] }

/-- A ClickHouse-sync state whose checkpoint already reports a.scid
completed for ES. -/
def chInitCompleted : CHState :=
  { mem := [(("ES", "a.scid"), true)]
  , durable := [(("ES", "a.scid"), true)]
  , table := [], processedLog := [] }

/-- A 56-byte stream whose first magic byte 0xFF is not valid UTF-8. -/
def badHeader : List Nat := 255 :: List.replicate 55 0

/-- A 136-byte all-zero stream: a valid 56-byte header followed by two
whole 40-byte records. -/
def goodBytes : List Nat := List.replicate 136 0

/-! ## Helper lemmas -/

theorem foldl_inv {α β : Type} (f : β → α → β) (P : β → Prop)
    (hf : ∀ b a, P b → P (f b a)) :
    ∀ (l : List α) (b : β), P b → P (l.foldl f b) := by
  intro l
  induction l with
  | nil => intro b hb; exact hb
  | cons a l ih => intro b hb; exact ih (f b a) (hf b a hb)

theorem scanl_inv {α β : Type} (f : β → α → β) (P : β → Prop)
    (hf : ∀ b a, P b → P (f b a)) :
    ∀ (l : List α) (b : β), P b → ∀ st ∈ List.scanl f b l, P st := by
  intro l
  induction l with
  | nil =>
    intro b hb st hst
    simp only [List.scanl, List.mem_singleton] at hst
    exact hst ▸ hb
  | cons a l ih =>
    intro b hb st hst
    simp only [List.scanl, List.mem_cons] at hst
    rcases hst with h | h
    · exact h ▸ hb
    · exact ih (f b a) (hf b a hb) st h

theorem readRecordsLoop_nil (s e : Option Nat) (bs : List Nat)
    (h : bs.length < RECORD_SIZE) : SCIDParser.readRecordsLoop s e bs = [] := by
  rw [SCIDParser.readRecordsLoop]
  simp [h]

theorem readRecordsLoop_step (s e : Option Nat) (bs : List Nat)
    (h : ¬ bs.length < RECORD_SIZE) :
    SCIDParser.readRecordsLoop s e bs =
      (if (match s with
           | some sd => decide ((SCIDParser.unpackRecord (bs.take RECORD_SIZE)).raw_time < sd)
           | none => false)
       then SCIDParser.readRecordsLoop s e (bs.drop RECORD_SIZE)
       else if (match e with
           | some ed => decide (ed ≤ (SCIDParser.unpackRecord (bs.take RECORD_SIZE)).raw_time)
           | none => false)
       then SCIDParser.readRecordsLoop s e (bs.drop RECORD_SIZE)
       else SCIDParser.unpackRecord (bs.take RECORD_SIZE)
              :: SCIDParser.readRecordsLoop s e (bs.drop RECORD_SIZE)) := by
  conv_lhs => rw [SCIDParser.readRecordsLoop]
  simp [h]

theorem filter_range_none (l : List SCIDRecord) :
    l.filter (SCIDParser.recordInRange none none) = l := by
  induction l with
  | nil => rfl
  | cons r l ih => simp [List.filter_cons, SCIDParser.recordInRange, ih]

theorem readRecordsLoop_eq_filter (s e : Option Nat) (bytes : List Nat) :
    SCIDParser.readRecordsLoop s e bytes =
      (SCIDParser.readRecordsLoop none none bytes).filter
        (SCIDParser.recordInRange s e) := by
  have H : ∀ (n : Nat) (bs : List Nat), bs.length ≤ n →
      SCIDParser.readRecordsLoop s e bs =
        (SCIDParser.readRecordsLoop none none bs).filter
          (SCIDParser.recordInRange s e) := by
    intro n
    induction n with
    | zero =>
      intro bs hb
      have hlen : bs.length < RECORD_SIZE := by
        simp [RECORD_SIZE]; omega
      rw [readRecordsLoop_nil s e bs hlen, readRecordsLoop_nil none none bs hlen]
      rfl
    | succ n ih =>
      intro bs hb
      by_cases hlen : bs.length < RECORD_SIZE
      · rw [readRecordsLoop_nil s e bs hlen, readRecordsLoop_nil none none bs hlen]
        rfl
      · have hdrop : (bs.drop RECORD_SIZE).length ≤ n := by
          simp only [List.length_drop, RECORD_SIZE] at *
          omega
        have ihd := ih (bs.drop RECORD_SIZE) hdrop
        rw [readRecordsLoop_step s e bs hlen, readRecordsLoop_step none none bs hlen]
        set r := SCIDParser.unpackRecord (bs.take RECORD_SIZE) with hr
        cases s with
        | none =>
          cases e with
          | none => simp [SCIDParser.recordInRange, List.filter_cons, filter_range_none]
          | some ed =>
            by_cases h2 : ed ≤ r.raw_time
            · simp [SCIDParser.recordInRange, h2, ihd, Nat.not_lt.mpr h2]
            · simp [SCIDParser.recordInRange, h2, ihd, Nat.lt_of_not_le h2]
        | some sd =>
          cases e with
          | none =>
            by_cases h1 : r.raw_time < sd
            · simp [SCIDParser.recordInRange, h1, ihd, Nat.not_le.mpr h1]
            · simp [SCIDParser.recordInRange, h1, ihd, Nat.le_of_not_lt h1]
          | some ed =>
            by_cases h1 : r.raw_time < sd
            · simp [SCIDParser.recordInRange, h1, ihd, Nat.not_le.mpr h1]
            · by_cases h2 : ed ≤ r.raw_time
              · simp [SCIDParser.recordInRange, h1, h2, ihd, Nat.not_lt.mpr h2]
              · simp [SCIDParser.recordInRange, h1, h2, ihd,
                  Nat.le_of_not_lt h1, Nat.lt_of_not_le h2]
  exact H bytes.length bytes le_rfl

theorem readRecordsLoop_length (bytes : List Nat) :
    (SCIDParser.readRecordsLoop none none bytes).length
      = bytes.length / RECORD_SIZE := by
  have H : ∀ (n : Nat) (bs : List Nat), bs.length ≤ n →
      (SCIDParser.readRecordsLoop none none bs).length
        = bs.length / RECORD_SIZE := by
    intro n
    induction n with
    | zero =>
      intro bs hb
      have hlen : bs.length < RECORD_SIZE := by simp [RECORD_SIZE]; omega
      rw [readRecordsLoop_nil none none bs hlen]
      simp [Nat.div_eq_of_lt hlen]
    | succ n ih =>
      intro bs hb
      by_cases hlen : bs.length < RECORD_SIZE
      · rw [readRecordsLoop_nil none none bs hlen]
        simp [Nat.div_eq_of_lt hlen]
      · have hdrop : (bs.drop RECORD_SIZE).length ≤ n := by
          simp only [List.length_drop, RECORD_SIZE] at *
          omega
        have ihd := ih (bs.drop RECORD_SIZE) hdrop
        rw [readRecordsLoop_step none none bs hlen]
        simp [ihd, List.length_drop]
        simp only [RECORD_SIZE] at *
        omega
  exact H bytes.length bytes le_rfl

/-! ## Claim C7: date filtering in the decoder -/

/-- C7: for every file and optional bounds, read_records yields exactly the
records whose derived datetime t satisfies start_date ≤ t (when given) and
t < end_date (when given) — start inclusive, end exclusive, absent bounds
unbounded — in file order: the date-bounded run equals the unbounded run
filtered by the range predicate; and the resampler's date filter is the
same filter on raw Time. -/
theorem c7_decode_filters_by_date :
    (∀ (bytes : List Nat) (s e : Option Nat),
      SCIDParser.read_records bytes s e 0 =
        Except.map (fun l => l.filter (SCIDParser.recordInRange s e))
          (SCIDParser.read_records bytes none none 0)) ∧
    (∀ (df : List RTick) (rs re : Option Nat),
      dateFilter df rs re = df.filter (fun t =>
        (match rs with
         | some sd => decide (to_raw sd ≤ t.time)
         | none => true) &&
        (match re with
         | some ed => decide (t.time < to_raw ed)
         | none => true))) := by
  constructor
  · intro bytes s e
    unfold SCIDParser.read_records
    cases SCIDParser.parse_header bytes with
    | error msg => rfl
    | ok hd =>
      simp only [Except.map]
      rw [readRecordsLoop_eq_filter]
  · intro df rs re
    cases rs with
    | none =>
      cases re with
      | none => simp [dateFilter]
      | some ed => simp [dateFilter]
    | some sd =>
      cases re with
      | none => simp [dateFilter]
      | some ed => simp [dateFilter, List.filter_filter, Bool.and_comm]

/-! ## Claim C8 (corrected): header failure and record count -/

/-- C8 counterexample: the claim says decoding fails with a format error
iff fewer than 56 header bytes are available, and that any stream of s ≥ 56
bytes decodes to floor((s-56)/40) records; but a 56-byte stream whose magic
byte 0xFF is not valid UTF-8 makes parse_header raise (Python's
UnicodeDecodeError from decoding file_type_id), so decoding fails with a
full header present. -/
theorem c8_counterexample_bad_magic :
    badHeader.length = 56 ∧ isErr (SCIDParser.parse_header badHeader) = true := by
  constructor
  · decide
  · decide

/-- C8 as amended: parse_header fails iff fewer than 56 bytes are available
or the 4-byte file_type_id is not valid UTF-8; given a parsable header, a
trailing fragment shorter than 40 bytes ends decoding as normal end of
stream, and a stream of s ≥ 56 bytes with valid magic decodes (before date
filtering) to exactly floor((s - 56) / 40) records. -/
theorem c8_amended_header_and_count : ∀ bytes : List Nat,
    (isErr (SCIDParser.parse_header bytes) = true ↔
      (bytes.length < 56 ∨ utf8Valid (bytes.take 4) = false)) ∧
    (56 ≤ bytes.length → utf8Valid (bytes.take 4) = true →
      SCIDParser.read_records bytes none none 0 =
        Except.ok (SCIDParser.readRecordsLoop none none (bytes.drop 56)) ∧
      (SCIDParser.readRecordsLoop none none (bytes.drop 56)).length
        = (bytes.length - 56) / 40) := by
  intro bytes
  constructor
  · simp only [SCIDParser.parse_header, HEADER_SIZE]
    by_cases h1 : bytes.length < 56
    · simp [h1, isErr]
    · by_cases h2 : utf8Valid (bytes.take 4) = true
      · simp [h1, h2, isErr]
      · simp [h1, h2, isErr]
  · intro hlen hmagic
    have hok : SCIDParser.parse_header bytes =
        Except.ok
          { file_type_id := rstripNul (bytes.take 4)
          , header_size := leNat ((bytes.drop 4).take 4)
          , record_size := leNat ((bytes.drop 8).take 4)
          , version := leNat ((bytes.drop 12).take 2)
          , unused1 := leNat ((bytes.drop 14).take 2)
          , utc_start_index := leNat ((bytes.drop 16).take 4)
          , reserve := (bytes.drop 20).take 36 } := by
      unfold SCIDParser.parse_header
      have h1 : ¬ bytes.length < HEADER_SIZE := by
        simp only [HEADER_SIZE]; omega
      simp [h1, hmagic]
    constructor
    · unfold SCIDParser.read_records
      rw [hok]
      have : (if HEADER_SIZE < 0 then 0 else HEADER_SIZE) = 56 := by
        simp [HEADER_SIZE]
      rw [this]
    · rw [readRecordsLoop_length]
      simp only [List.length_drop, RECORD_SIZE]

/-- Witness for the amended C8 at a 136-byte all-zero stream: the header
parses and exactly (136 - 56) / 40 = 2 records decode. -/
theorem c8_amended_witness :
    56 ≤ goodBytes.length ∧ utf8Valid (goodBytes.take 4) = true ∧
    (SCIDParser.readRecordsLoop none none (goodBytes.drop 56)).length
      = (goodBytes.length - 56) / 40 :=
  ⟨by decide, by decide,
    ((c8_amended_header_and_count goodBytes).2 (by decide) (by decide)).2⟩

/-! ## Claim C10: byte offsets up to the header size are ignored -/

/-- C10: read_records seeks only when the requested byte offset strictly
exceeds the 56-byte header size, so any offset o with 0 ≤ o ≤ 56 yields
exactly the same record sequence as offset 0: reading starts at the first
record after the header. -/
theorem c10_small_offsets_ignored :
    ∀ (bytes : List Nat) (s e : Option Nat) (o : Nat), o ≤ 56 →
      SCIDParser.read_records bytes s e o = SCIDParser.read_records bytes s e 0 := by
  intro bytes s e o ho
  unfold SCIDParser.read_records
  cases SCIDParser.parse_header bytes with
  | error msg => rfl
  | ok hd =>
    have ho2 : ¬ HEADER_SIZE < o := by simp only [HEADER_SIZE]; omega
    have ho3 : ¬ HEADER_SIZE < 0 := by simp [HEADER_SIZE]
    rw [if_neg ho2, if_neg ho3]

/-- Witness for C10 at offset 30 on the concrete 136-byte stream. -/
theorem c10_witness :
    30 ≤ 56 ∧
    SCIDParser.read_records goodBytes none none 30
      = SCIDParser.read_records goodBytes none none 0 :=
  ⟨by decide, c10_small_offsets_ignored goodBytes none none 30 (by decide)⟩

/-! ## Resampler lemmas -/

theorem scaleTick_one (t : RTick) : scaleTick 1 t = t := by
  simp [scaleTick]

theorem zfix_scale_comm (m : ℚ) (t : RTick) :
    zfixTick (scaleTick m t) = scaleTick m (zfixTick t) := by
  by_cases h : t.open_ = 0
  · simp [zfixTick, scaleTick, h]
  · by_cases hm : m = 0
    · subst hm
      ext <;> simp [zfixTick, scaleTick, h]
    · have hnz : t.open_ * m ≠ 0 := mul_ne_zero h hm
      simp [zfixTick, scaleTick, h, hnz]

theorem firstOpen_chron (g : List RTick)
    (hp : g.Pairwise (fun a b => a.time ≤ b.time)) (hne : g ≠ []) :
    ∃ tf ∈ g, firstOpen g = tf.open_ ∧ ∀ u ∈ g, tf.time ≤ u.time := by
  cases g with
  | nil => exact absurd rfl hne
  | cons t rest =>
    refine ⟨t, List.mem_cons_self t rest, rfl, ?_⟩
    intro u hu
    rcases List.mem_cons.mp hu with h | h
    · rw [h]
    · exact (List.pairwise_cons.mp hp).1 u h

theorem lastClose_chron (g : List RTick)
    (hp : g.Pairwise (fun a b => a.time ≤ b.time)) (hne : g ≠ []) :
    ∃ tl ∈ g, lastClose g = tl.close ∧ ∀ u ∈ g, u.time ≤ tl.time := by
  induction g with
  | nil => exact absurd rfl hne
  | cons t rest ih =>
    cases rest with
    | nil =>
      refine ⟨t, List.mem_cons_self t [], rfl, ?_⟩
      intro u hu
      rcases List.mem_cons.mp hu with h | h
      · rw [h]
      · exact absurd h (List.not_mem_nil u)
    | cons u2 rest2 =>
      have hp2 := (List.pairwise_cons.mp hp).2
      obtain ⟨tl, hmem, heq, hle⟩ := ih hp2 (by simp)
      refine ⟨tl, List.mem_cons_of_mem t hmem, ?_, ?_⟩
      · rw [lastClose]
        exact heq
      · intro v hv
        rcases List.mem_cons.mp hv with h | h
        · rw [h]
          exact (List.pairwise_cons.mp hp).1 tl hmem
        · exact hle v h

/-! ## Claim C6: the cleaning pipeline -/

/-- C6: for every input tick sequence and every price multiplier, the
cleaned stream fed to the aggregation (mask, then multiplier, then
zero-open fix, as the source orders the stages) equals the result of
applying, in the claim's order, (1) dropping non-regular ticks, (2)
replacing a zero Open by the Close, (3) scaling O/H/L/C by the multiplier;
over exact arithmetic the two stage orders coincide, a multiplier of 1
being a no-op. -/
theorem c6_cleaning_order_equivalent :
    ∀ (df : List RTick) (m : ℚ), cleanedTicks df m = cleanedTicksSpec df m := by
  intro df m
  unfold cleanedTicks cleanedTicksSpec zeroOpenFix applyMultiplier maskRegular
  by_cases hm : m = 1
  · subst hm
    rw [if_neg (by simp)]
    rw [List.map_map]
    have hfun : scaleTick 1 ∘ zfixTick = zfixTick :=
      funext fun t => scaleTick_one (zfixTick t)
    rw [hfun]
  · rw [if_pos hm]
    rw [List.map_map, List.map_map]
    have hfun : zfixTick ∘ scaleTick m = scaleTick m ∘ zfixTick :=
      funext fun t => zfix_scale_comm m t
    rw [hfun]

/-! ## Claim C4: bundle classification and exclusion -/

/-- C4: a tick is classified regular iff its absolute Open is below 1e10
(otherwise it is a bundle marker); and any tick whose Open lies within
1e10 of either frozen sentinel is non-regular and therefore excluded from
the resampler's OHLC aggregation input whatever its volume fields: it
never passes the bundle mask, and removing all its copies from the input
leaves the cleaned stream unchanged. -/
theorem c4_bundle_classification_and_exclusion : ∀ t : RTick,
    (t.is_regular_trade = true ↔ |t.open_| < q1e10) ∧
    ((|t.open_ - FIRST_BUNDLE_TRADE| < q1e10 ∨
      |t.open_ - LAST_BUNDLE_TRADE| < q1e10) →
      t.is_regular_trade = false ∧
      (∀ df : List RTick, t ∉ maskRegular df) ∧
      (∀ (df : List RTick) (m : ℚ),
        cleanedTicks (df.filter (fun u => decide ¬(u = t))) m = cleanedTicks df m)) := by
  intro t
  have hreg : t.is_regular_trade = true ↔ |t.open_| < q1e10 := by
    simp [RTick.is_regular_trade]
  refine ⟨hreg, ?_⟩
  intro hsent
  have hbig : ¬ |t.open_| < q1e10 := by
    rcases hsent with h | h
    · have h1 : |FIRST_BUNDLE_TRADE| - |t.open_| ≤ |t.open_ - FIRST_BUNDLE_TRADE| := by
        rw [abs_sub_comm]
        exact abs_sub_abs_le_abs_sub _ _
      have h2 : |FIRST_BUNDLE_TRADE| = (19990009513251226345509817234554355712 : ℚ) := by
        rw [FIRST_BUNDLE_TRADE, abs_of_nonpos (by norm_num)]
        norm_num
      rw [h2] at h1
      simp only [q1e10] at *
      intro hcon
      linarith
    · have h1 : |LAST_BUNDLE_TRADE| - |t.open_| ≤ |t.open_ - LAST_BUNDLE_TRADE| := by
        rw [abs_sub_comm]
        exact abs_sub_abs_le_abs_sub _ _
      have h2 : |LAST_BUNDLE_TRADE| = (19990019654456028171345029208179998720 : ℚ) := by
        rw [LAST_BUNDLE_TRADE, abs_of_nonpos (by norm_num)]
        norm_num
      rw [h2] at h1
      simp only [q1e10] at *
      intro hcon
      linarith
  have hregf : t.is_regular_trade = false := by
    simp [RTick.is_regular_trade]
    exact le_of_not_lt hbig
  refine ⟨hregf, ?_, ?_⟩
  · intro df hmem
    rw [maskRegular, List.mem_filter, hregf] at hmem
    exact absurd hmem.2 (by simp)
  · intro df m
    have hmask : maskRegular (df.filter (fun u => decide ¬(u = t))) = maskRegular df := by
      rw [maskRegular, maskRegular, List.filter_filter]
      refine List.filter_congr ?_
      intro u _
      by_cases hu : u = t
      · subst hu
        rw [hregf]
        simp
      · simp [hu]
    unfold cleanedTicks
    rw [hmask]

/-- Witness for C4 at a tick sitting 5 above the first bundle sentinel
with nonzero volume fields. -/
theorem c4_witness :
    (|sentinelTick.open_ - FIRST_BUNDLE_TRADE| < q1e10 ∨
     |sentinelTick.open_ - LAST_BUNDLE_TRADE| < q1e10) ∧
    sentinelTick.is_regular_trade = false ∧
    sentinelTick ∉ maskRegular [sentinelTick, exT0] := by
  have hs : (|sentinelTick.open_ - FIRST_BUNDLE_TRADE| < q1e10 ∨
      |sentinelTick.open_ - LAST_BUNDLE_TRADE| < q1e10) := by
    refine Or.inl ?_
    have hd : sentinelTick.open_ - FIRST_BUNDLE_TRADE = 5 := by
      simp [sentinelTick]
    rw [hd, abs_of_pos (by norm_num)]
    norm_num [q1e10]
  exact ⟨hs, ((c4_bundle_classification_and_exclusion sentinelTick).2 hs).1,
    (((c4_bundle_classification_and_exclusion sentinelTick).2 hs).2.1) [sentinelTick, exT0]⟩

/-! ## Claim C5: per-bucket OHLCV reduction -/

/-- C5: on a chronologically ordered cleaned stream, every output bar of
the aggregation is keyed by floor(raw_time / MINUTE_US), its group is
exactly the input ticks with that bucket index, and the bar fields are the
first tick's Open (a chronologically minimal tick), the last tick's Close
(a chronologically maximal tick), max High, min Low and the four sums;
and the three same-bucket ticks with opens 100, 0, 102 and closes 101,
103, 104 resample under multiplier 1 to a single bar with Open 100 and
Close 104, the zero Open having been replaced by that tick's Close 103 in
the cleaned stream before aggregation. -/
theorem c5_bucket_reduction : ∀ df : List RTick, sortedByTime df →
    ((∀ (k : Nat) (b : Bar), (k, b) ∈ resampleAgg df →
      groupRows df k ≠ [] ∧
      (∀ t ∈ groupRows df k, minuteIndexOf t = k) ∧
      (∀ t ∈ df, minuteIndexOf t = k → t ∈ groupRows df k) ∧
      (∃ tf ∈ groupRows df k, b.open_ = tf.open_ ∧
        ∀ u ∈ groupRows df k, tf.time ≤ u.time) ∧
      (∃ tl ∈ groupRows df k, b.close = tl.close ∧
        ∀ u ∈ groupRows df k, u.time ≤ tl.time) ∧
      b.high = maxHigh (groupRows df k) ∧
      b.low = minLow (groupRows df k) ∧
      b.trades = sumTrades (groupRows df k) ∧
      b.volume = sumVolume (groupRows df k) ∧
      b.bid_volume = sumBid (groupRows df k) ∧
      b.ask_volume = sumAsk (groupRows df k)) ∧
     (resample_scid_to_1min exDf none none 1 = some [(0, exBar)] ∧
      cleanedTicks exDf 1 = [exT0, { exT1 with open_ := 103 }, exT2])) := by
  intro df hsorted
  have hpairdf : df.Pairwise (fun a b => a.time ≤ b.time) := hsorted
  constructor
  · intro k b hmem
    rw [resampleAgg, List.mem_map] at hmem
    obtain ⟨k', hk', heq⟩ := hmem
    rw [Prod.mk.injEq] at heq
    obtain ⟨h1, h2⟩ := heq
    subst h1
    subst h2
    have hex : ∃ t ∈ df, minuteIndexOf t = k' := by
      rw [bucketKeys, (List.perm_insertionSort _ _).mem_iff, List.mem_dedup,
        List.mem_map] at hk'
      obtain ⟨t, ht, hidx⟩ := hk'
      exact ⟨t, ht, hidx⟩
    have hne : groupRows df k' ≠ [] := by
      obtain ⟨t, ht, hidx⟩ := hex
      have : t ∈ groupRows df k' := by
        rw [groupRows, List.mem_filter]
        exact ⟨ht, by simp [hidx]⟩
      exact List.ne_nil_of_mem this
    have hpair : (groupRows df k').Pairwise (fun a b => a.time ≤ b.time) := by
      rw [groupRows]
      exact hpairdf.filter _
    refine ⟨hne, ?_, ?_, ?_, ?_, rfl, rfl, rfl, rfl, rfl, rfl⟩
    · intro t ht
      rw [groupRows, List.mem_filter] at ht
      simpa using ht.2
    · intro t ht hidx
      rw [groupRows, List.mem_filter]
      exact ⟨ht, by simp [hidx]⟩
    · obtain ⟨tf, hm, he, hl⟩ := firstOpen_chron (groupRows df k') hpair hne
      exact ⟨tf, hm, he, hl⟩
    · obtain ⟨tl, hm, he, hl⟩ := lastClose_chron (groupRows df k') hpair hne
      exact ⟨tl, hm, he, hl⟩
  · constructor
    · decide
    · decide

/-- Witness for C5: applying the theorem at the concrete three-tick
example extracts the chronologically-first Open of the single bucket. -/
theorem c5_witness :
    ∃ tf ∈ groupRows exDf 0, exBar.open_ = tf.open_ ∧
      ∀ u ∈ groupRows exDf 0, tf.time ≤ u.time :=
  (((c5_bucket_reduction exDf (by decide)).1 0 exBar (by decide)).2.2.2).1

/-! ## Loader lemmas -/

theorem insertOne_keys_self (t : List DbRow) (r : DbRow) :
    r.key ∈ DBManager.tableKeys (DBManager.insertOne t r) := by
  rw [DBManager.insertOne]
  by_cases h : r.key ∈ DBManager.tableKeys t
  · rw [if_pos h]
    exact h
  · rw [if_neg h]
    simp [DBManager.tableKeys]

theorem insertOne_keys_mono (t : List DbRow) (r' : DbRow) (k : Nat × Nat)
    (h : k ∈ DBManager.tableKeys t) :
    k ∈ DBManager.tableKeys (DBManager.insertOne t r') := by
  rw [DBManager.insertOne]
  split
  · exact h
  · simp only [DBManager.tableKeys, List.map_append, List.mem_append]
    exact Or.inl h

theorem fold_keys_mono (b : List DbRow) : ∀ (t : List DbRow) (k : Nat × Nat),
    k ∈ DBManager.tableKeys t →
    k ∈ DBManager.tableKeys (b.foldl DBManager.insertOne t) := by
  induction b with
  | nil => intro t k h; exact h
  | cons r rs ih =>
    intro t k h
    exact ih (DBManager.insertOne t r) k (insertOne_keys_mono t r k h)

theorem fold_keys_all (b : List DbRow) : ∀ (t : List DbRow), ∀ r ∈ b,
    r.key ∈ DBManager.tableKeys (b.foldl DBManager.insertOne t) := by
  induction b with
  | nil => intro t r h; exact absurd h (List.not_mem_nil r)
  | cons r0 rs ih =>
    intro t r h
    rcases List.mem_cons.mp h with h | h
    · subst h
      exact fold_keys_mono rs (DBManager.insertOne t r) r.key (insertOne_keys_self t r)
    · exact ih (DBManager.insertOne t r0) r h

theorem insertOne_id_of_mem (t : List DbRow) (r : DbRow)
    (h : r.key ∈ DBManager.tableKeys t) : DBManager.insertOne t r = t := by
  rw [DBManager.insertOne, if_pos h]

theorem fold_id_of_all (b : List DbRow) : ∀ t : List DbRow,
    (∀ r ∈ b, r.key ∈ DBManager.tableKeys t) →
    b.foldl DBManager.insertOne t = t := by
  induction b with
  | nil => intro t _; rfl
  | cons r rs ih =>
    intro t h
    rw [List.foldl_cons, insertOne_id_of_mem t r (h r (List.mem_cons_self r rs))]
    exact ih t (fun r' hr' => h r' (List.mem_cons_of_mem r hr'))

theorem countKey_zero_of_not_mem (t : List DbRow) (k : Nat × Nat)
    (h : k ∉ DBManager.tableKeys t) : countKey t k = 0 := by
  induction t with
  | nil => rfl
  | cons r rest ih =>
    simp only [DBManager.tableKeys, List.map_cons, List.mem_cons] at h
    push_neg at h
    have hne : ¬ (decide (r.key = k) = true) := by
      simp only [decide_eq_true_eq]
      exact fun hc => h.1 hc.symm
    rw [countKey, List.filter_cons, if_neg hne]
    exact ih h.2

theorem countKey_insertOne (t : List DbRow) (r : DbRow) (k : Nat × Nat)
    (h : countKey t k ≤ 1) : countKey (DBManager.insertOne t r) k ≤ 1 := by
  rw [DBManager.insertOne]
  split
  · exact h
  next hni =>
    rw [countKey, List.filter_append, List.length_append]
    by_cases hk : r.key = k
    · have h0 : countKey t k = 0 := countKey_zero_of_not_mem t k (hk ▸ hni)
      rw [countKey] at h0
      rw [h0]
      simp [hk]
    · have hnil : List.filter (fun x => decide (x.key = k)) [r] = [] := by
        simp [hk]
      rw [hnil]
      simpa [countKey] using h

theorem countKey_fold (b : List DbRow) : ∀ (t : List DbRow) (k : Nat × Nat),
    countKey t k ≤ 1 → countKey (b.foldl DBManager.insertOne t) k ≤ 1 := by
  induction b with
  | nil => intro t k h; exact h
  | cons r rs ih =>
    intro t k h
    exact ih (DBManager.insertOne t r) k (countKey_insertOne t r k h)

/-! ## Claim C3 (corrected): loader idempotence -/

/-- C3 counterexample: the claim asserts that for every destination table
calling the batch loader twice with an identical batch leaves the same row
count as calling it once; the ClickHouse loader appends unconditionally,
so a repeated one-row batch leaves two rows instead of one. -/
theorem c3_counterexample_duplicate_batch :
    ((ClickHouseManager.insert_records
        ((ClickHouseManager.insert_records [] [row0]).1) [row0]).1).length = 2 ∧
    ((ClickHouseManager.insert_records [] [row0]).1).length = 1 := by
  constructor
  · rfl
  · rfl

/-- C3 as amended: the PostgreSQL loader is idempotent — repeating an
identical batch leaves the destination unchanged, keys stay unique
(at-most-once effective insertion per (datetime, raw_time), duplicates
silently skipped, never an error) — while the ClickHouse loader appends
every row unconditionally, so each repeat of a nonempty batch grows the
destination by the batch length. -/
theorem c3_amended_loader_idempotence :
    (∀ (t b : List DbRow),
      (DBManager.insert_records (DBManager.insert_records t b).1 b).1 =
        (DBManager.insert_records t b).1) ∧
    (∀ (t b : List DbRow) (k : Nat × Nat), countKey t k ≤ 1 →
      countKey ((DBManager.insert_records t b).1) k ≤ 1) ∧
    (∀ (t b : List DbRow), b ≠ [] →
      ((ClickHouseManager.insert_records t b).1).length = t.length + b.length) := by
  refine ⟨?_, ?_, ?_⟩
  · intro t b
    by_cases hb : b.isEmpty
    · simp [DBManager.insert_records, hb]
    · simp only [DBManager.insert_records, hb, Bool.false_eq_true, if_false]
      exact fold_id_of_all b (b.foldl DBManager.insertOne t)
        (fun r hr => fold_keys_all b t r hr)
  · intro t b k h
    rw [DBManager.insert_records]
    split
    · exact h
    · exact countKey_fold b t k h
  · intro t b hb
    have hbe : ¬ (b.isEmpty = true) := by
      simp [List.isEmpty_iff]
      exact hb
    simp [ClickHouseManager.insert_records, hbe, List.length_append]

/-- Witness for the amended C3 on concrete one-row batches. -/
theorem c3_amended_witness :
    countKey [] (5, 5) ≤ 1 ∧
    countKey ((DBManager.insert_records [] [row0]).1) (5, 5) ≤ 1 ∧
    (([row0] : List DbRow) ≠ []) ∧
    ((ClickHouseManager.insert_records [row0] [row0]).1).length =
      ([row0] : List DbRow).length + ([row0] : List DbRow).length :=
  ⟨by decide, c3_amended_loader_idempotence.2.1 [] [row0] (5, 5) (by decide),
   by simp,
   c3_amended_loader_idempotence.2.2 [row0] [row0] (by simp)⟩

/-! ## Checkpoint lemmas -/

theorem is_completed_cons (key : String × String) (v : Bool) (rest : CkptData)
    (s f : String) :
    is_completed_data ((key, v) :: rest) s f =
      if key = (s, f) then v else is_completed_data rest s f := by
  by_cases h : key = (s, f)
  · rw [if_pos h, is_completed_data, List.find?_cons_of_pos]
    simp [h]
  · rw [if_neg h, is_completed_data, List.find?_cons_of_neg, is_completed_data]
    simp [h]

theorem is_completed_set (d : CkptData) (s0 f0 : String) (c : Bool)
    (s f : String) :
    is_completed_data (set_completed_data d s0 f0 c) s f =
      if s = s0 ∧ f = f0 then c else is_completed_data d s f := by
  induction d with
  | nil =>
    rw [set_completed_data, is_completed_cons]
    by_cases h : s = s0 ∧ f = f0
    · rw [if_pos h, if_pos (by rw [h.1, h.2])]
    · have hne : ¬ ((s0, f0) : String × String) = (s, f) := by
        simp only [Prod.mk.injEq]
        intro hc
        exact h ⟨hc.1.symm, hc.2.symm⟩
      rw [if_neg h, if_neg hne]
  | cons e rest ih =>
    obtain ⟨k0, v0⟩ := e
    rw [set_completed_data]
    by_cases hb : ((k0, v0) : (String × String) × Bool).1 == (s0, f0)
    · have he : k0 = (s0, f0) := by simpa using hb
      rw [if_pos hb, is_completed_cons, is_completed_cons, he]
      by_cases h : s = s0 ∧ f = f0
      · rw [if_pos h, if_pos (by rw [h.1, h.2])]
      · have hne : ¬ ((s0, f0) : String × String) = (s, f) := by
          simp only [Prod.mk.injEq]
          intro hc
          exact h ⟨hc.1.symm, hc.2.symm⟩
        rw [if_neg hne, if_neg h, if_neg hne]
    · have he : ¬ k0 = (s0, f0) := by simpa using hb
      rw [if_neg hb, is_completed_cons, is_completed_cons]
      by_cases hef : k0 = (s, f)
      · have hcond : ¬ (s = s0 ∧ f = f0) := by
          intro hc
          exact he (by rw [hef, hc.1, hc.2])

        rw [if_pos hef, if_neg hcond, if_pos hef]
      · rw [if_neg hef, if_neg hef, ih]

theorem is_completed_set_true (d : CkptData) (s0 f0 s f : String)
    (h : is_completed_data d s f = true) :
    is_completed_data (set_completed_data d s0 f0 true) s f = true := by
  rw [is_completed_set]
  split
  · rfl
  · exact h

/-! ## Orchestrator lemmas -/

theorem process_contract_noop (fe : Bool) (rows : List DbRow) (bs : Nat)
    (table : List DbRow) : process_contract fe rows bs table = (table, 0, 0) := by
  cases fe
  · rfl
  · have hok : read_records_call_ok = false := by decide
    simp [process_contract, parser_thread, hok]

theorem ch_sync_noop (symbol : String) (fsE : String → Bool)
    (recs : String → List DbRow) (bs : Nat) :
    ∀ (files : List String) (init : CHState),
    ClickHouseSync.sync_symbol symbol fsE recs bs init files =
      { init with
        processedLog := init.processedLog ++
          (files.filter
            (fun f => !(is_completed_data init.mem symbol (fileName f)))).map fileName } := by
  intro files
  induction files with
  | nil =>
    intro init
    simp [ClickHouseSync.sync_symbol, ClickHouseSync.sync_symbol_gen]
  | cons f fs ih =>
    intro init
    simp only [ClickHouseSync.sync_symbol, ClickHouseSync.sync_symbol_gen,
      List.foldl_cons] at *
    by_cases hc : is_completed_data init.mem symbol (fileName f) = true
    · rw [ClickHouseSync.sync_step_gen, if_pos hc]
      rw [ih init]
      simp [List.filter_cons, hc]
    · have hstep : ClickHouseSync.sync_step_gen symbol
          (fun f st => process_contract (fsE f) (recs f) bs st.table) init f =
          { init with processedLog := init.processedLog ++ [fileName f] } := by
        rw [ClickHouseSync.sync_step_gen, if_neg hc]
        simp [process_contract_noop]
      rw [hstep, ih]
      simp [List.filter_cons, hc, List.append_assoc]

/-! ## Claim C2: errors never set the completion flag -/

/-- C2: in the ClickHouse orchestrator every decode attempt raises — the
read_records call in process_contract passes the keyword buffer_size,
which read_records does not accept, so Python raises TypeError inside the
parser thread before any record is yielded — and such an error aborts only
that file's sync: the run leaves the in-memory and durable checkpoints
untouched (in particular no completion flag is ever set) and still visits
every other not-yet-completed file; since no batch is ever handed to the
loader, a loader error likewise never marks a file complete. -/
theorem c2_decode_error_leaves_flag_unset :
    ∀ (symbol : String) (fsE : String → Bool) (recs : String → List DbRow)
      (bs : Nat) (init : CHState) (files : List String),
    read_records_call_ok = false ∧
    (∀ f, (parser_thread read_records_call_ok (recs f) bs).2 = true) ∧
    (ClickHouseSync.sync_symbol symbol fsE recs bs init files).mem = init.mem ∧
    (ClickHouseSync.sync_symbol symbol fsE recs bs init files).durable = init.durable ∧
    (ClickHouseSync.sync_symbol symbol fsE recs bs init files).table = init.table ∧
    (ClickHouseSync.sync_symbol symbol fsE recs bs init files).processedLog =
      init.processedLog ++ (files.filter
        (fun f => !(is_completed_data init.mem symbol (fileName f)))).map fileName := by
  intro symbol fsE recs bs init files
  have hok : read_records_call_ok = false := by decide
  refine ⟨hok, ?_, ?_, ?_, ?_, ?_⟩
  · intro f
    rw [hok, parser_thread]
    rfl
  · rw [ch_sync_noop]
  · rw [ch_sync_noop]
  · rw [ch_sync_noop]
  · rw [ch_sync_noop]

theorem ch_step_saved (symbol : String)
    (results : String → CHState → List DbRow × Nat × Nat)
    (st : CHState) (f : String) (h : st.durable = st.mem) :
    (ClickHouseSync.sync_step_gen symbol results st f).durable =
      (ClickHouseSync.sync_step_gen symbol results st f).mem := by
  simp only [ClickHouseSync.sync_step_gen]
  split_ifs with h1 h2
  · exact h
  · rfl
  · exact h

theorem ds_step_durable (symbol : String) (fsE : String → Bool)
    (recs : String → List DbRow) (bs : Nat) (st : DSState) (f : String) :
    (DataSync.sync_step symbol fsE recs bs st f).durable = st.durable := by
  simp only [DataSync.sync_step]
  split
  · rfl
  · rfl

theorem ds_step_log (symbol : String) (fsE : String → Bool)
    (recs : String → List DbRow) (bs : Nat) (st : DSState) (f : String) :
    (DataSync.sync_step symbol fsE recs bs st f).processedLog =
      if fsE f then st.processedLog ++ [fileName f] else st.processedLog := by
  simp only [DataSync.sync_step]
  split
  · rfl
  · rfl

theorem ch_step_completed_skip (symbol : String)
    (results : String → CHState → List DbRow × Nat × Nat) (fname : String)
    (st : CHState) (f : String)
    (h : is_completed_data st.mem symbol fname = true ∧
      fname ∉ st.processedLog) :
    is_completed_data (ClickHouseSync.sync_step_gen symbol results st f).mem
        symbol fname = true ∧
      fname ∉ (ClickHouseSync.sync_step_gen symbol results st f).processedLog := by
  simp only [ClickHouseSync.sync_step_gen]
  split_ifs with h1 h2
  · exact h
  · have hne : fname ≠ fileName f := by
      intro hc
      rw [← hc] at h1
      exact h1 h.1
    refine ⟨is_completed_set_true st.mem symbol (fileName f) symbol fname h.1, ?_⟩
    simp only [List.mem_append, List.mem_singleton]
    intro hc
    rcases hc with hc | hc
    · exact h.2 hc
    · exact hne hc
  · have hne : fname ≠ fileName f := by
      intro hc
      rw [← hc] at h1
      exact h1 h.1
    refine ⟨h.1, ?_⟩
    simp only [List.mem_append, List.mem_singleton]
    intro hc
    rcases hc with hc | hc
    · exact h.2 hc
    · exact hne hc

theorem ds_processes_all (symbol : String) (fsE : String → Bool)
    (recs : String → List DbRow) (bs : Nat) :
    ∀ (files : List String) (init : DSState), ∀ f ∈ files, fsE f = true →
      fileName f ∈
        (files.foldl (DataSync.sync_step symbol fsE recs bs) init).processedLog := by
  intro files
  induction files with
  | nil => intro init f hf _; exact absurd hf (List.not_mem_nil f)
  | cons g fs ih =>
    intro init f hf hE
    rw [List.foldl_cons]
    rcases List.mem_cons.mp hf with h | h
    · subst h
      refine foldl_inv (DataSync.sync_step symbol fsE recs bs)
        (fun st : DSState => fileName f ∈ st.processedLog) ?_ fs
        (DataSync.sync_step symbol fsE recs bs init f) ?_
      · intro b a hb
        show fileName f ∈ (DataSync.sync_step symbol fsE recs bs b a).processedLog
        rw [ds_step_log]
        split
        · exact List.mem_append_left _ hb
        · exact hb
      · show fileName f ∈
          (DataSync.sync_step symbol fsE recs bs init f).processedLog
        rw [ds_step_log, hE, if_pos rfl]
        exact List.mem_append_right _ (List.mem_singleton.mpr rfl)
    · exact ih (DataSync.sync_step symbol fsE recs bs init g) f h hE

/-! ## Claim C1 (corrected): durability of completion entries -/

/-- C1 counterexample: the claim says the orchestrator persists each fully
processed file's completion entry before moving to the next file, so a run
stopped after N files leaves exactly N durable completed entries; but in
the PostgreSQL orchestrator checkpoint.save() runs only once after the
whole contract loop, so after fully processing the first of two files the
in-memory flag is set while the durable checkpoint still holds zero
entries. -/
theorem c1_counterexample_save_deferred :
    ((DataSync.sync_states "ES" (fun _ => true) (fun _ => [row0]) 10000 dsInit
        ["a.scid", "b.scid"]).getD 1 dsInit).processedLog = ["a.scid"] ∧
    is_completed_data
      ((DataSync.sync_states "ES" (fun _ => true) (fun _ => [row0]) 10000 dsInit
        ["a.scid", "b.scid"]).getD 1 dsInit).mem "ES" "a.scid" = true ∧
    ((DataSync.sync_states "ES" (fun _ => true) (fun _ => [row0]) 10000 dsInit
        ["a.scid", "b.scid"]).getD 1 dsInit).durable = [] := by
  refine ⟨?_, ?_, ?_⟩
  · decide
  · decide
  · decide

/-- C1 as amended: in the ClickHouse orchestrator the checkpoint file
always mirrors the in-memory state between files — every completion marked
so far is durable (save follows set_completed immediately) before the next
file is touched; in the PostgreSQL orchestrator no state reached during
the contract loop has any new durable entry (durable stays at its initial
value however many files were fully processed), and only the single save
after the loop makes the in-memory completions durable. -/
theorem c1_amended_checkpoint_persistence :
    (∀ (symbol : String) (results : String → CHState → List DbRow × Nat × Nat)
       (init : CHState) (files : List String), init.durable = init.mem →
       ∀ st ∈ ClickHouseSync.sync_states_gen symbol results init files,
         st.durable = st.mem) ∧
    (∀ (symbol : String) (fsE : String → Bool) (recs : String → List DbRow)
       (bs : Nat) (init : DSState) (files : List String),
       ∀ st ∈ DataSync.sync_states symbol fsE recs bs init files,
         st.durable = init.durable) ∧
    (∀ (symbol : String) (fsE : String → Bool) (recs : String → List DbRow)
       (bs : Nat) (init : DSState) (files : List String),
       (DataSync.sync_symbol symbol fsE recs bs init files).durable =
         (DataSync.sync_symbol symbol fsE recs bs init files).mem) := by
  refine ⟨?_, ?_, ?_⟩
  · intro symbol results init files h st hst
    exact scanl_inv _ (fun st => st.durable = st.mem)
      (fun b a hb => ch_step_saved symbol results b a hb) files init h st hst
  · intro symbol fsE recs bs init files st hst
    refine scanl_inv _ (fun st => st.durable = init.durable) ?_ files init rfl st hst
    intro b a hb
    rw [ds_step_durable]
    exact hb
  · intro symbol fsE recs bs init files
    rfl

/-- Witness for the amended C1: a one-file ClickHouse run from the empty
state keeps the durable checkpoint equal to the in-memory one at the state
reached after the file. -/
theorem c1_amended_witness :
    chInit.durable = chInit.mem ∧
    ((ClickHouseSync.sync_states_gen "ES"
        (fun _ st => (st.table ++ [row0], 1, 1)) chInit ["a.scid"]).getD 1
          chInit).durable =
      ((ClickHouseSync.sync_states_gen "ES"
        (fun _ st => (st.table ++ [row0], 1, 1)) chInit ["a.scid"]).getD 1
          chInit).mem :=
  ⟨rfl, c1_amended_checkpoint_persistence.1 "ES"
    (fun _ st => (st.table ++ [row0], 1, 1)) chInit ["a.scid"] rfl _ (by decide)⟩

/-! ## Claim C9 (corrected): skipping completed files -/

/-- C9 counterexample: the claim says a file reported completed at the
start of the run is skipped entirely; the PostgreSQL orchestrator never
consults is_completed, so a file already completed in the checkpoint is
decoded and loaded again — it lands in the processed log and its rows in
the table. -/
theorem c9_counterexample_no_skip :
    is_completed_data dsInitCompleted.mem "ES" "a.scid" = true ∧
    (DataSync.sync_symbol "ES" (fun _ => true) (fun _ => [row0]) 10000
        dsInitCompleted ["a.scid"]).processedLog = ["a.scid"] ∧
    (DataSync.sync_symbol "ES" (fun _ => true) (fun _ => [row0]) 10000
        dsInitCompleted ["a.scid"]).table = [row0] := by
  refine ⟨?_, ?_, ?_⟩
  · decide
  · decide
  · decide

/-- C9 as amended: the ClickHouse orchestrator skips every file whose
checkpoint entry is completed at the start of the run (the file is never
handed to process_contract, hence neither decoded nor loaded), while the
PostgreSQL orchestrator performs no completion check and processes every
existing contract file regardless of the checkpoint. -/
theorem c9_amended_completed_skip :
    (∀ (symbol : String) (results : String → CHState → List DbRow × Nat × Nat)
       (init : CHState) (files : List String) (fname : String),
       is_completed_data init.mem symbol fname = true →
       fname ∉ init.processedLog →
       fname ∉ (ClickHouseSync.sync_symbol_gen symbol results init files).processedLog) ∧
    (∀ (symbol : String) (fsE : String → Bool) (recs : String → List DbRow)
       (bs : Nat) (init : DSState) (files : List String), ∀ f ∈ files,
       fsE f = true →
       fileName f ∈ (DataSync.sync_symbol symbol fsE recs bs init files).processedLog) := by
  constructor
  · intro symbol results init files fname h1 h2
    have := foldl_inv (ClickHouseSync.sync_step_gen symbol results)
      (fun st => is_completed_data st.mem symbol fname = true ∧
        fname ∉ st.processedLog)
      (fun b a hb => ch_step_completed_skip symbol results fname b a hb)
      files init ⟨h1, h2⟩
    exact this.2
  · intro symbol fsE recs bs init files f hf hE
    exact ds_processes_all symbol fsE recs bs files init f hf hE

/-- Witness for the amended C9: a completed a.scid is absent from the
ClickHouse run's processed log, and an existing b.scid is processed by the
PostgreSQL run. -/
theorem c9_amended_witness :
    is_completed_data chInitCompleted.mem "ES" "a.scid" = true ∧
    "a.scid" ∉ (ClickHouseSync.sync_symbol_gen "ES"
      (fun _ st => (st.table, 1, 1)) chInitCompleted
        ["a.scid", "b.scid"]).processedLog ∧
    fileName "b.scid" ∈ (DataSync.sync_symbol "ES" (fun _ => true)
      (fun _ => [row0]) 3 dsInit ["b.scid"]).processedLog :=
  ⟨by decide,
   c9_amended_completed_skip.1 "ES" (fun _ st => (st.table, 1, 1))
     chInitCompleted ["a.scid", "b.scid"] "a.scid" (by decide) (by decide),
   c9_amended_completed_skip.2 "ES" (fun _ => true) (fun _ => [row0]) 3 dsInit
     ["b.scid"] "b.scid" (by decide) rfl⟩
